import Mathlib

/-!
Verification of `tonper19/PythonDemos`.

Shallow embedding of the two source files:

* `src/text_analyzer.py` — the `analyze_text` function that counts lines
  and characters of a text file, together with its error behaviour,
  resource handling and frame conditions.
* `src/beyond_the_basics/04.properties_and_class_methods/shipping.py` —
  the `ShippingContainer` hierarchy with its process-wide serial counter.

File contents are modelled as lists of (already decoded) characters, the
file system as a partial map from file names to contents, and Python's
exceptions as an explicit error type.  Python's text-mode line iteration
is embedded as `splitLines`: it yields each newline-terminated chunk with
its terminator, plus a final unterminated chunk when the content does not
end in a newline.
-/

/-- Python error classes relevant to this repository: `IOError`/`OSError`
raised by `open`/read failures, and `ValueError` raised by
`RefrigeratedShippingContainer.__init__`. -/
inductive PyError : Type
  | ioError : PyError
  | valueError : PyError
deriving DecidableEq, Repr

/-- Accumulator-based splitting of decoded text into Python text-mode
iteration chunks.  `acc` holds the characters of the current (reversed)
unfinished line. -/
def splitLinesAux : List Char → List Char → List (List Char)
  | [], acc => if acc.isEmpty then [] else [acc.reverse]
  | c :: cs, acc =>
      if c = '\n' then (acc.reverse ++ ['\n']) :: splitLinesAux cs []
      else splitLinesAux cs (c :: acc)

/-- The sequence of lines produced by `for line in f` over a text file
whose decoded content is `content`: each chunk ends with `'\n'` except
possibly a final unterminated chunk. -/
def splitLines (content : List Char) : List (List Char) :=
  splitLinesAux content []

/-- The loop body of `analyze_text`: `lines += 1; chars += len(line)` for
each produced line. -/
def countLoop : List (List Char) → Nat → Nat → Nat × Nat
  | [], lines, chars => (lines, chars)
  | l :: ls, lines, chars => countLoop ls (lines + 1) (chars + l.length)

/-- A file system: a partial map from file names to decoded contents.
`none` means the file does not exist or cannot be opened for reading. -/
def FileSystem : Type := String → Option (List Char)

/-- Embedding of `analyze_text(filename)` from `src/text_analyzer.py`:
opening a missing/unreadable file raises `IOError`; otherwise the lines
are iterated, counting lines and characters. -/
def analyze_text (fs : FileSystem) (filename : String) :
    Except PyError (Nat × Nat) :=
  match fs filename with
  | none => .error .ioError
  | some content => .ok (countLoop (splitLines content) 0 0)

/-- The exact content written by `TextAnalysisTest.setUp` in
`src/text_analyzer.py`: four lines, the last without a terminator. -/
def gettysburgText : String :=
  "Now we are engaged in a great civil war.\ntesting whether that nation,\nor any nation so conceived and so dedicated,\ncan long endure."

/-- The file system seen by the test suite: the fixture file holds the
four-line text. -/
def gettysburgFS : FileSystem :=
  fun n => if n = "text_analysis_test_file.txt" then some gettysburgText.data
           else none

/-!
Effectful model of `analyze_text` for the frame and resource claims.

Here a file is seen as the stream of chunks the reader receives: each
chunk is either a line (`Except.ok`) or a read failure (`Except.error`)
occurring at that point of the iteration.  The state carries the file
system and the list of currently open handles, so that acquisition and
release of the handle are explicit.
-/

/-- State threaded through the effectful run: the file system (mapping
names to chunk streams) and the names with an open file handle. -/
structure IOState : Type where
  fs : String → Option (List (Except PyError (List Char)))
  openHandles : List String

/-- Embedding of Python's `with open(filename, "r") as f: body`: opening a
missing file fails without acquiring a handle; otherwise the handle is
acquired, the body runs (possibly failing), and the handle is released on
every exit path. -/
def withOpen {A : Type} (s : IOState) (filename : String)
    (body : List (Except PyError (List Char)) → IOState →
              Except PyError A × IOState) :
    Except PyError A × IOState :=
  match s.fs filename with
  | none => (.error .ioError, s)
  | some chunks =>
      let s1 : IOState := ⟨s.fs, filename :: s.openHandles⟩
      let r := body chunks s1
      (r.1, ⟨r.2.fs, r.2.openHandles.erase filename⟩)

/-- The counting loop over a chunk stream: a read failure aborts the loop
and propagates the error. -/
def countLoopE : List (Except PyError (List Char)) → Nat → Nat →
    Except PyError (Nat × Nat)
  | [], lines, chars => .ok (lines, chars)
  | .error e :: _, _, _ => .error e
  | .ok l :: ls, lines, chars => countLoopE ls (lines + 1) (chars + l.length)

/-- Effectful embedding of `analyze_text(filename)`: the `with` block
around the counting loop. -/
def analyze_text_run (s : IOState) (filename : String) :
    Except PyError (Nat × Nat) × IOState :=
  withOpen s filename (fun chunks s1 => (countLoopE chunks 0 0, s1))

/-!
Embedding of `src/beyond_the_basics/04.properties_and_class_methods/shipping.py`.

The mutable class attribute `ShippingContainer.next_serial` is threaded
explicitly as a `Nat` state.  The external library call `iso6346.create`
is a parameter `create` of the constructors: the code under verification
only determines which owner code and which (zero-padded) serial string are
passed to it.  Temperatures are modelled as rationals; the only operation
the code performs on them is an order comparison against the literal
`4.0`, which is exact.
-/

/-- The `contents` argument of the container constructors: `None`, one
item, or a list of items. -/
inductive Contents : Type
  | none : Contents
  | single : String → Contents
  | items : List String → Contents
deriving DecidableEq, Repr

/-- A constructed `ShippingContainer` instance: its `owner_code`,
`contents` and `bic` attributes. -/
structure ShippingContainer : Type where
  owner_code : String
  contents : Contents
  bic : String
deriving DecidableEq, Repr

/-- Initial value of the class attribute `next_serial` in a fresh
process. -/
def ShippingContainer.next_serial : Nat := 1964

/-- Embedding of the static method `_get_next_serial`: returns the current
counter value and the incremented counter. -/
def ShippingContainer._get_next_serial (next_serial : Nat) : Nat × Nat :=
  (next_serial, next_serial + 1)

/-- Python's `str.zfill(width)` for the strings arising here (decimal
digits of a non-negative serial, so no sign handling is involved): pad on
the left with `'0'` up to `width` characters. -/
def zfill (s : String) (width : Nat) : String :=
  if width ≤ s.length then s
  else String.mk (List.replicate (width - s.length) '0') ++ s

/-- Embedding of the static method `_make_bic_code`: the external
`iso6346.create` (abstracted as `create`) is applied to the owner code and
the serial number rendered in decimal and zero-filled to 6 characters. -/
def ShippingContainer._make_bic_code (create : String → String → String)
    (owner_code : String) (serial : Nat) : String :=
  create owner_code (zfill (toString serial) 6)

/-- Embedding of `ShippingContainer.__init__`: stores the owner code and
contents, consumes one serial number for the BIC code, and returns the
instance together with the updated counter. -/
def ShippingContainer.init (create : String → String → String)
    (owner_code : String) (contents : Contents) (next_serial : Nat) :
    ShippingContainer × Nat :=
  let r := ShippingContainer._get_next_serial next_serial
  (⟨owner_code, contents,
    ShippingContainer._make_bic_code create owner_code r.1⟩, r.2)

/-- `k` successive constructions of containers, threading the class-level
counter. -/
def constructMany (create : String → String → String) (owner_code : String)
    (contents : Contents) : Nat → Nat → List ShippingContainer × Nat
  | 0, next_serial => ([], next_serial)
  | k + 1, next_serial =>
      let r := ShippingContainer.init create owner_code contents next_serial
      let rest := constructMany create owner_code contents k r.2
      (r.1 :: rest.1, rest.2)

/-- Maximum safe temperature of a refrigerated container, the class
attribute `MAX_CELSIUS = 4.0`. -/
def RefrigeratedShippingContainer.MAX_CELSIUS : ℚ := 4

/-- A constructed `RefrigeratedShippingContainer` instance. -/
structure RefrigeratedShippingContainer : Type where
  owner_code : String
  contents : Contents
  bic : String
  celsius : ℚ

/-- Embedding of `RefrigeratedShippingContainer.__init__`:
`super().__init__` runs first (consuming a serial number and building the
BIC code), then the temperature check raises `ValueError` when
`celsius > MAX_CELSIUS`, and only otherwise is the attribute set and the
instance returned.  Either way the updated counter is `next_serial + 1`. -/
def RefrigeratedShippingContainer.init (create : String → String → String)
    (owner_code : String) (contents : Contents) (celsius : ℚ)
    (next_serial : Nat) :
    Except PyError RefrigeratedShippingContainer × Nat :=
  let r := ShippingContainer.init create owner_code contents next_serial
  if celsius > RefrigeratedShippingContainer.MAX_CELSIUS then
    (.error .valueError, r.2)
  else
    (.ok ⟨r.1.owner_code, r.1.contents, r.1.bic, celsius⟩, r.2)

/-!
Theorems: sanity checks on small inputs, general lemmas about the splitter
and the counting loops, then the main results.
-/

example : splitLines "ab\ncd".data = ["ab\n".data, "cd".data] := by decide
example : splitLines "ab\n".data = ["ab\n".data] := by decide
example : splitLines "".data = [] := by decide
example : countLoop (splitLines "ab\ncd".data) 0 0 = (2, 5) := by decide
example : zfill "1964" 6 = "001964" := by decide

/-- The counting loop adds the number of lines to the line accumulator and
the total of the line lengths to the character accumulator. -/
theorem countLoop_eq (ls : List (List Char)) : ∀ a b,
    countLoop ls a b = (a + ls.length, b + (ls.map List.length).sum) := by
  induction ls with
  | nil => intro a b; simp [countLoop]
  | cons l ls ih =>
      intro a b
      rw [countLoop, ih]
      simp only [List.length_cons, List.map_cons, List.sum_cons, Prod.mk.injEq]
      omega

/-- Splitting into lines loses no characters: the line lengths sum to the
length of the remaining content plus the pending accumulator. -/
theorem splitLinesAux_sum (cs : List Char) : ∀ acc,
    ((splitLinesAux cs acc).map List.length).sum = cs.length + acc.length := by
  induction cs with
  | nil => intro acc; cases acc <;> simp [splitLinesAux]
  | cons c cs ih =>
      intro acc
      by_cases hc : c = '\n'
      · subst hc
        simp [splitLinesAux, ih]
        omega
      · simp [splitLinesAux, hc, ih]
        omega

/-- Number of chunks produced by the splitter, as a function of the number
of newline characters, whether the content ends in a newline, and whether
anything is pending in the accumulator. -/
theorem splitLinesAux_length (cs : List Char) : ∀ acc,
    (splitLinesAux cs acc).length =
      cs.count '\n' +
        (if cs.getLast? = some '\n' then 0
         else if cs.isEmpty then (if acc.isEmpty then 0 else 1) else 1) := by
  induction cs with
  | nil => intro acc; cases acc <;> simp [splitLinesAux]
  | cons c cs ih =>
      intro acc
      by_cases hc : c = '\n'
      · subst hc
        cases cs with
        | nil => simp [splitLinesAux]
        | cons d ds =>
            rw [splitLinesAux, if_pos rfl]
            simp only [List.length_cons, ih, List.count_cons,
              List.getLast?_cons_cons, List.isEmpty_cons, if_false]
            simp
            omega
      · cases cs with
        | nil =>
            simp [splitLinesAux, hc, List.count_cons, Ne.symm hc]
        | cons d ds =>
            rw [splitLinesAux, if_neg hc]
            simp only [ih, List.count_cons, List.getLast?_cons_cons,
              List.isEmpty_cons]
            simp [hc]

/-- Line decomposition of a whole file content: the number of lines is the
number of newline characters, plus one if the content ends in an
unterminated segment. -/
theorem splitLines_length (content : List Char) :
    (splitLines content).length =
      content.count '\n' +
        (if content ≠ [] ∧ content.getLast? ≠ some '\n' then 1 else 0) := by
  rw [splitLines, splitLinesAux_length]
  cases content with
  | nil => simp
  | cons c cs =>
      by_cases hl : (c :: cs).getLast? = some '\n' <;> simp [hl]

/-- Every chunk produced by the splitter is non-empty. -/
theorem splitLinesAux_ne_nil (cs : List Char) : ∀ acc l,
    l ∈ splitLinesAux cs acc → l ≠ [] := by
  induction cs with
  | nil =>
      intro acc l hl
      cases acc with
      | nil => simp [splitLinesAux] at hl
      | cons a as =>
          simp [splitLinesAux] at hl
          subst hl
          simp
  | cons c cs ih =>
      intro acc l hl
      by_cases hc : c = '\n'
      · subst hc
        simp [splitLinesAux] at hl
        rcases hl with h | h
        · subst h; simp
        · exact ih [] l h
      · rw [splitLinesAux, if_neg hc] at hl
        exact ih (c :: acc) l hl

/-- A list of non-empty lists has at least as many total elements as
lists. -/
theorem length_le_sum_lengths (ls : List (List Char))
    (h : ∀ l ∈ ls, l ≠ []) : ls.length ≤ (ls.map List.length).sum := by
  induction ls with
  | nil => simp
  | cons l ls ih =>
      simp only [List.map_cons, List.sum_cons, List.length_cons]
      have h1 : l ≠ [] := h l (by simp)
      have h2 : 0 < l.length := List.length_pos.mpr h1
      have h3 := ih (fun x hx => h x (by simp [hx]))
      omega

/-- C1: for every readable text file, `analyze_text` returns the pair
`(lineCount, charCount)` where `charCount` is the sum, over every line of
the file (terminating newline included, trailing unterminated line
included), of that line's character length, and `lineCount` is the number
of newline-terminated segments plus one exactly when the file ends in
unterminated content.  In addition, the summed line lengths equal the
total character count of the content. -/
theorem analyze_text_correct (fs : FileSystem) (filename : String)
    (content : List Char) (h : fs filename = some content) :
    analyze_text fs filename =
      .ok (content.count '\n' +
             (if content ≠ [] ∧ content.getLast? ≠ some '\n' then 1 else 0),
           ((splitLines content).map List.length).sum)
    ∧ ((splitLines content).map List.length).sum = content.length := by
  constructor
  · rw [analyze_text, h]
    simp [countLoop_eq, splitLines_length]
  · rw [splitLines, splitLinesAux_sum]
    simp

/-- Witness for C1 at the concrete file system mapping every name to the
content `"hi\nx"`. -/
theorem analyze_text_correct_witness :
    analyze_text (fun _ => some ("hi\nx".data) : FileSystem) "a.txt" =
      .ok (("hi\nx".data).count '\n' +
             (if "hi\nx".data ≠ [] ∧ ("hi\nx".data).getLast? ≠ some '\n'
              then 1 else 0),
           ((splitLines "hi\nx".data).map List.length).sum)
    ∧ ((splitLines "hi\nx".data).map List.length).sum =
        ("hi\nx".data).length :=
  analyze_text_correct (fun _ => some ("hi\nx".data)) "a.txt" ("hi\nx".data) rfl

/-- C2: on the four-line fixture file (no trailing terminator),
`analyze_text` returns exactly `(4, 131)`. -/
theorem analyze_text_gettysburg :
    analyze_text gettysburgFS "text_analysis_test_file.txt" = .ok (4, 131) :=
  rfl

/-- C3: on an empty file, `analyze_text` returns exactly `(0, 0)`. -/
theorem analyze_text_empty (fs : FileSystem) (filename : String)
    (h : fs filename = some []) :
    analyze_text fs filename = .ok (0, 0) := by
  rw [analyze_text, h]
  rfl

/-- Witness for C3 at a file system mapping every name to empty content. -/
theorem analyze_text_empty_witness :
    analyze_text (fun _ => some [] : FileSystem) "empty.txt" = .ok (0, 0) :=
  analyze_text_empty (fun _ => some []) "empty.txt" rfl

/-- C4: `analyze_text` raises an I/O-class error exactly when the file is
missing or unreadable, succeeds with a result exactly when the file is
readable, and never raises a generic value error. -/
theorem analyze_text_error_iff (fs : FileSystem) (filename : String) :
    (analyze_text fs filename = .error .ioError ↔ fs filename = none)
    ∧ ((∃ p, analyze_text fs filename = .ok p) ↔
        ∃ c, fs filename = some c)
    ∧ analyze_text fs filename ≠ .error .valueError := by
  rw [analyze_text]
  cases hfs : fs filename <;> simp

/-- Witness for C4 at the empty file system and the path `"foobar"` used
by `test_no_such_file`. -/
theorem analyze_text_error_iff_witness :
    (analyze_text (fun _ => none : FileSystem) "foobar" = .error .ioError ↔
      (fun _ => none : FileSystem) "foobar" = none)
    ∧ ((∃ p, analyze_text (fun _ => none : FileSystem) "foobar" = .ok p) ↔
        ∃ c, (fun _ => none : FileSystem) "foobar" = some c)
    ∧ analyze_text (fun _ => none : FileSystem) "foobar" ≠
        .error .valueError :=
  analyze_text_error_iff (fun _ => none) "foobar"

/-- C5: `analyze_text` is deterministic over file content: if two file
systems give the path the same content, the results agree; in particular
two calls on the same unchanged file agree. -/
theorem analyze_text_deterministic (fs₁ fs₂ : FileSystem) (filename : String)
    (h : fs₁ filename = fs₂ filename) :
    analyze_text fs₁ filename = analyze_text fs₂ filename := by
  rw [analyze_text, analyze_text, h]

/-- Witness for C5: two distinct file systems agreeing at `"a.txt"` give
the same analysis there. -/
theorem analyze_text_deterministic_witness :
    analyze_text (fun _ => some ("ok\n".data) : FileSystem) "a.txt" =
      analyze_text
        (fun n => if n = "a.txt" then some ("ok\n".data) else none
          : FileSystem) "a.txt" :=
  analyze_text_deterministic (fun _ => some ("ok\n".data))
    (fun n => if n = "a.txt" then some ("ok\n".data) else none) "a.txt"
    (by decide)

/-- C8: every successful analysis satisfies `lineCount ≤ charCount` (both
counts are natural numbers, hence non-negative): every iterated line holds
at least one character. -/
theorem analyze_text_counts_le (fs : FileSystem) (filename : String)
    (lc cc : Nat) (h : analyze_text fs filename = .ok (lc, cc)) :
    lc ≤ cc := by
  rw [analyze_text] at h
  cases hfs : fs filename with
  | none => rw [hfs] at h; exact absurd h (by simp)
  | some content =>
      rw [hfs] at h
      simp only [Except.ok.injEq] at h
      rw [countLoop_eq] at h
      have h1 : lc = (splitLines content).length := by
        have := congrArg Prod.fst h
        simpa using this.symm
      have h2 : cc = ((splitLines content).map List.length).sum := by
        have := congrArg Prod.snd h
        simpa using this.symm
      rw [h1, h2]
      exact length_le_sum_lengths _ (splitLinesAux_ne_nil content [])

/-- Witness for C8 at a concrete two-line file giving `(2, 4)`. -/
theorem analyze_text_counts_le_witness :
    analyze_text (fun _ => some ("a\nb\n".data) : FileSystem) "f" =
      .ok (2, 4) ∧ (2 : Nat) ≤ 4 :=
  ⟨rfl,
   analyze_text_counts_le (fun _ => some ("a\nb\n".data)) "f" 2 4 rfl⟩

/-- On an error-free chunk stream the effectful loop computes exactly what
the pure loop computes. -/
theorem countLoopE_pure (ls : List (List Char)) : ∀ a b,
    countLoopE (ls.map Except.ok) a b = .ok (countLoop ls a b) := by
  induction ls with
  | nil => intro a b; rfl
  | cons l ls ih => intro a b; simp [countLoopE, countLoop, ih]

/-- The effectful run agrees with the pure `analyze_text` whenever the
chunk streams are the error-free line decompositions of the contents. -/
theorem analyze_text_run_pure (fs : FileSystem) (handles : List String)
    (filename : String) :
    (analyze_text_run
        ⟨fun n => (fs n).map (fun c => (splitLines c).map Except.ok),
         handles⟩ filename).1 =
      analyze_text fs filename := by
  rw [analyze_text_run, withOpen, analyze_text]
  cases hfs : fs filename <;> simp [hfs, countLoopE_pure]

/-- C6: `analyze_text` never deletes or modifies the input file: after any
run — successful, failing to open, or failing mid-read — the file system
is unchanged, so every file (the input file in particular) still exists
with identical content. -/
theorem analyze_text_run_frame (s : IOState) (filename : String) :
    ((analyze_text_run s filename).2).fs = s.fs := by
  rw [analyze_text_run, withOpen]
  cases hfs : s.fs filename <;> rfl

/-- C7: on every exit path of `analyze_text` — normal return, open
failure, or a read error mid-iteration — the open handles after the call
are those before it: the acquired handle is always released. -/
theorem analyze_text_run_closes (s : IOState) (filename : String) :
    ((analyze_text_run s filename).2).openHandles = s.openHandles := by
  rw [analyze_text_run, withOpen]
  cases hfs : s.fs filename with
  | none => rfl
  | some chunks => simp

/-- Padding a string to `w` characters yields a string of length
`max w` the original length. -/
theorem zfill_length (s : String) (w : Nat) :
    (zfill s w).length = max w s.length := by
  rw [zfill]
  by_cases h : w ≤ s.length
  · simp [h, Nat.max_eq_right h]
  · simp [h, String.length_append]
    omega

/-- `k` successive constructions starting at counter `s` leave the counter
at `s + k` and hand out the BIC codes built from the consecutive serials
`s, s + 1, …, s + k - 1`. -/
theorem constructMany_spec (create : String → String → String)
    (owner_code : String) (contents : Contents) : ∀ k s,
    (constructMany create owner_code contents k s).2 = s + k
    ∧ (constructMany create owner_code contents k s).1.map
        ShippingContainer.bic
      = (List.range k).map
          (fun i => create owner_code (zfill (toString (s + i)) 6)) := by
  intro k
  induction k with
  | zero => intro s; simp [constructMany]
  | succ k ih =>
      intro s
      obtain ⟨h1, h2⟩ := ih (s + 1)
      refine ⟨?_, ?_⟩
      · simp only [constructMany, ShippingContainer.init,
          ShippingContainer._get_next_serial, h1]
        omega
      · simp only [constructMany, ShippingContainer.init,
          ShippingContainer._get_next_serial,
          ShippingContainer._make_bic_code, List.map_cons, h2,
          List.range_succ_eq_map, List.map_map]
        have hfun :
            ((fun i => create owner_code (zfill (toString (s + i)) 6)) ∘
              Nat.succ)
            = fun i => create owner_code (zfill (toString (s + 1 + i)) 6) := by
          funext i
          simp only [Function.comp_apply]
          congr 3
          omega
        simp [hfun]

/-- C9: `_get_next_serial` returns the current counter and increments it
by exactly one; the counter starts at 1964 in a fresh process; `k`
successive constructions receive the consecutive serials
`s, s + 1, …, s + k - 1` (leaving the counter at `s + k`), each rendered
zero-filled to 6 characters in the BIC code. -/
theorem serial_counter_spec :
    (∀ s, ShippingContainer._get_next_serial s = (s, s + 1))
    ∧ ShippingContainer.next_serial = 1964
    ∧ (∀ create owner_code contents k s,
        (constructMany create owner_code contents k s).2 = s + k
        ∧ (constructMany create owner_code contents k s).1.map
            ShippingContainer.bic
          = (List.range k).map
              (fun i => create owner_code (zfill (toString (s + i)) 6)))
    ∧ (∀ str, (zfill str 6).length = max 6 str.length) :=
  ⟨fun _ => rfl, rfl,
   fun create owner_code contents k s =>
     constructMany_spec create owner_code contents k s,
   fun str => zfill_length str 6⟩

/-- C10: constructing a refrigerated container with
`celsius > MAX_CELSIUS` raises `ValueError` and returns no instance, yet
the class-level counter has already been incremented: the failed
construction still consumes a serial number. -/
theorem refrigerated_init_hot (create : String → String → String)
    (owner_code : String) (contents : Contents) (celsius : ℚ)
    (next_serial : Nat)
    (h : celsius > RefrigeratedShippingContainer.MAX_CELSIUS) :
    RefrigeratedShippingContainer.init create owner_code contents celsius
        next_serial
      = (.error .valueError, next_serial + 1) := by
  rw [RefrigeratedShippingContainer.init]
  simp [ShippingContainer.init, ShippingContainer._get_next_serial, h]

/-- Witness for C10 at temperature `5 > 4` and counter `1964`. -/
theorem refrigerated_init_hot_witness :
    (5 : ℚ) > RefrigeratedShippingContainer.MAX_CELSIUS
    ∧ RefrigeratedShippingContainer.init (fun o s => o ++ s) "MAE"
        Contents.none 5 1964
      = (.error .valueError, 1965) :=
  ⟨by decide,
   refrigerated_init_hot (fun o s => o ++ s) "MAE" Contents.none 5 1964
     (by decide)⟩
